import Mathlib

/-!
Verification development for the GitHub-Projects-to-Google-Sheets export
script (`.github/scripts/export-to-sheets.py`).

The core logic (item normalization in `get_item_details`, the eligibility
filter `filter_items`, and the row projection `export_to_csv`) is embedded
shallowly below.  Modelling conventions:

* Python dict keys that may be absent become `Option` fields; a key that the
  GraphQL response always materialises together with its value is modelled as
  key-present-with-value (`some v`).
* Python values that range over strings and JSON numbers become the `Scalar`
  sum; numbers are modelled as integers.
* Calendar dates are modelled by their proleptic Gregorian ordinal (an `Int`),
  matching Python `datetime.date` comparison and `timedelta` arithmetic.
* Python exceptions that escape (AttributeError from `status.upper()` on a
  non-string, TypeError from `strptime` on a non-string) become
  `Except.error`; the `try/except ValueError` around date parsing becomes a
  total `Option`-returning parser.
-/

deriving instance DecidableEq for Except

/-- Scalar value stored for a custom field: a string or a number. -/
inductive Scalar where
  | str (s : String)
  | num (n : Int)
deriving DecidableEq, Repr

/-- Python value as seen through the item dictionary during row projection:
`None`, a string, a number, or a list of strings. -/
inductive PyVal where
  | none
  | str (s : String)
  | num (n : Int)
  | list (xs : List String)
deriving DecidableEq, Repr

/-- ASCII upper-casing of a string (Python `str.upper` restricted to the
ASCII range in which all compared values live). -/
def asciiUpper (s : String) : String :=
  String.mk (s.data.map Char.toUpper)

/-- ASCII lower-casing of a string (Python `str.lower` on ASCII logins). -/
def asciiLower (s : String) : String :=
  String.mk (s.data.map Char.toLower)

/-- Truthiness of a scalar, as in Python `if status:` — a string is truthy
iff non-empty, a number iff non-zero. -/
def scalarTruthy : Scalar → Bool
  | .str s => s ≠ ""
  | .num n => n ≠ 0

/-- Python `status.upper()`: succeeds on a string, raises `AttributeError`
on a number. -/
def scalarUpper : Scalar → Except String String
  | .str s => .ok (asciiUpper s)
  | .num _ => .error "AttributeError"

/-! ### Date parsing (`datetime.strptime(date_str, "%Y-%m-%d").date()`) -/

/-- Gregorian leap-year rule used by `datetime.date`. -/
def isLeapYear (y : Nat) : Bool :=
  y % 4 == 0 && (y % 100 != 0 || y % 400 == 0)

/-- Days in a given month of a given year. -/
def daysInMonth (y m : Nat) : Nat :=
  if m == 2 then (if isLeapYear y then 29 else 28)
  else if m == 4 || m == 6 || m == 9 || m == 11 then 30
  else 31

/-- Days in the months strictly before month `m` of year `y`. -/
def daysBeforeMonth (y m : Nat) : Nat :=
  (List.range (m - 1)).foldl (fun acc i => acc + daysInMonth y (i + 1)) 0

/-- Proleptic Gregorian ordinal of a calendar date, with 0001-01-01 as day 1
(Python `date.toordinal`). -/
def dateOrdinal (y m d : Nat) : Int :=
  ((y - 1) * 365 + (y - 1) / 4 - (y - 1) / 100 + (y - 1) / 400
    + daysBeforeMonth y m + d : Nat)

/-- Non-empty run of ASCII digits. -/
def allDigits (cs : List Char) : Bool :=
  !cs.isEmpty && cs.all Char.isDigit

/-- Numeric value of a run of ASCII digits. -/
def digitsVal (cs : List Char) : Nat :=
  cs.foldl (fun acc c => acc * 10 + (c.toNat - 48)) 0

/-- Splitting of a character list at every dash, keeping empty groups
(the behaviour of `"­".join`-style splitting used by the `%Y-%m-%d`
format's literal separators). -/
def splitDash : List Char → List (List Char)
  | [] => [[]]
  | c :: rest =>
    match splitDash rest with
    | [] => [[]]
    | g :: gs => if c == '-' then [] :: g :: gs else (c :: g) :: gs

/-- Model of `datetime.strptime(s, "%Y-%m-%d").date()` wrapped in
`try/except ValueError`: exactly three dash-separated groups, `%Y` exactly
four digits, `%m` and `%d` one or two digits in range, and the day must
exist in the month; any failure yields `none`.  A successful parse is
returned as the date's ordinal. -/
def parseDate (s : String) : Option Int :=
  match splitDash s.data with
  | [ys, ms, ds] =>
    if allDigits ys && ys.length == 4 && allDigits ms && ms.length ≤ 2
        && allDigits ds && ds.length ≤ 2 then
      let y := digitsVal ys
      let m := digitsVal ms
      let d := digitsVal ds
      if 1 ≤ y && 1 ≤ m && m ≤ 12 && 1 ≤ d && d ≤ daysInMonth y m then
        some (dateOrdinal y m d)
      else none
    else none
  | _ => none

/-! ### Raw project items (GraphQL response shape) -/

/-- Owning field of a raw field value (`field` object, whose `name` key may be
missing when no fragment matched). -/
structure RawFieldRef where
  name : Option String
deriving DecidableEq, Repr

/-- One node of `fieldValues.nodes`: at most one of the typed value keys is
present, plus an optional `field` reference. -/
structure RawFieldValue where
  text : Option String
  number : Option Int
  date : Option String
  name : Option String
  field : Option RawFieldRef
deriving DecidableEq, Repr

/-- Parent issue reference inside raw content (`parent` object). -/
structure RawParent where
  id : Option String
  title : Option String
  number : Option Int
deriving DecidableEq, Repr

/-- Raw `content` union (Issue / PullRequest fragment fields).  A key that is
absent from the response is `none`; `mergedAt` is present exactly on
PullRequest content.  A `parent` that is absent or null is `none`. -/
structure RawContent where
  title : Option String
  number : Option Int
  state : Option String
  body : Option String
  url : Option String
  createdAt : Option String
  updatedAt : Option String
  closedAt : Option String
  mergedAt : Option String
  parent : Option RawParent
  labels : Option (List String)
  assignees : Option (List String)
  milestone : Option String
  repository : Option String
deriving DecidableEq, Repr

/-- One raw project item node: id, optional content union, and the
`fieldValues.nodes` list when the `fieldValues` key with `nodes` is present. -/
structure RawItem where
  id : Option String
  content : Option RawContent
  fieldValues : Option (List RawFieldValue)
deriving DecidableEq, Repr

/-! ### Normalization (`get_item_details`) -/

/-- Resolution of the owning field display name:
`field_value.get('field', {}).get('name', 'Unknown Field')`. -/
def resolvedFieldName (fv : RawFieldValue) : String :=
  match fv.field with
  | some fr => fr.name.getD "Unknown Field"
  | none => "Unknown Field"

/-- Value extraction for one raw field value, following the source's
`if 'text' in ... elif 'number' in ... elif 'date' in ... elif 'name' in
field_value and 'field' in field_value` chain; `none` when no branch fires. -/
def extractValue (fv : RawFieldValue) : Option Scalar :=
  match fv.text with
  | some t => some (.str t)
  | none =>
    match fv.number with
    | some n => some (.num n)
    | none =>
      match fv.date with
      | some d => some (.str d)
      | none =>
        match fv.name, fv.field with
        | some nm, some _ => some (.str nm)
        | _, _ => none

/-- Python dict assignment `m[k] = v` on an association list: replaces the
value in place when the key exists, otherwise appends. -/
def dictInsert (m : List (String × Scalar)) (k : String) (v : Scalar) :
    List (String × Scalar) :=
  match m with
  | [] => [(k, v)]
  | (k', v') :: rest =>
    if k' == k then (k', v) :: rest else (k', v') :: dictInsert rest k v

/-- Python dict lookup on the association list built by `dictInsert`. -/
def dictGet (m : List (String × Scalar)) (k : String) : Option Scalar :=
  match m with
  | [] => none
  | (k', v') :: rest => if k' == k then some v' else dictGet rest k

/-- Processing of one `fieldValues` node: skip it when its field name does
not resolve (placeholder `'Unknown Field'`), otherwise store the extracted
value, if any, under the resolved name. -/
def processFieldValue (m : List (String × Scalar)) (fv : RawFieldValue) :
    List (String × Scalar) :=
  if resolvedFieldName fv == "Unknown Field" then m
  else
    match extractValue fv with
    | some v => dictInsert m (resolvedFieldName fv) v
    | none => m

/-- The `field_values` dict accumulated over `item['fieldValues']['nodes']`. -/
def buildCustomFields (fvs : List RawFieldValue) : List (String × Scalar) :=
  fvs.foldl processFieldValue []

/-- Content-derived keys of `item_data`, added only when the content union is
present and exposes both `number` and `state`. -/
structure ContentData where
  title : String
  number : Int
  state : String
  body : String
  html_url : String
  parent_issue : String
  parent_issue_number : PyVal
  parent_issue_id : String
  labels : List String
  assignees : List String
  milestone : String
  created_at : String
  updated_at : String
  closed_at : String
  repository : String
  merged_at : Option String
deriving DecidableEq, Repr

/-- The normalized item dictionary built by `get_item_details`:
`id` and `content_type` are always present; the content-derived keys are
present iff `contentData` is `some`; the `custom_fields` key is present iff
`customFields` is `some`. -/
structure NormalizedItem where
  id : Option String
  content_type : String
  contentData : Option ContentData
  customFields : Option (List (String × Scalar))
deriving DecidableEq, Repr

/-- Embedding of `GitHubProjectExporter.get_item_details`. -/
def get_item_details (item : RawItem) : NormalizedItem :=
  let contentPart : String × Option ContentData :=
    match item.content with
    | none => ("Unknown", none)
    | some content =>
      match content.number, content.state with
      | some n, some st =>
        let ctype := if content.mergedAt.isSome then "PullRequest" else "Issue"
        let cd : ContentData :=
          { title := content.title.getD ""
            number := n
            state := st
            body := content.body.getD ""
            html_url := content.url.getD ""
            parent_issue :=
              match content.parent with
              | some p => p.title.getD ""
              | none => ""
            parent_issue_number :=
              match content.parent with
              | some p => match p.number with
                          | some pn => .num pn
                          | none => .str ""
              | none => .str ""
            parent_issue_id :=
              match content.parent with
              | some p => p.id.getD ""
              | none => ""
            labels := content.labels.getD []
            assignees := content.assignees.getD []
            milestone := content.milestone.getD ""
            created_at := content.createdAt.getD ""
            updated_at := content.updatedAt.getD ""
            closed_at := content.closedAt.getD ""
            repository := content.repository.getD ""
            merged_at := if ctype == "PullRequest" then some (content.mergedAt.getD "") else none }
        (ctype, some cd)
      | _, _ => ("Unknown", none)
  { id := item.id
    content_type := contentPart.1
    contentData := contentPart.2
    customFields := item.fieldValues.map buildCustomFields }

/-! ### Eligibility filter (`filter_items`) -/

/-- Custom-field lookup `'custom_fields' in item and k in item['custom_fields']`
followed by `item['custom_fields'][k]`. -/
def customGet (i : NormalizedItem) (k : String) : Option Scalar :=
  match i.customFields with
  | some m => dictGet m k
  | none => none

/-- Gate 1 (`if not item.get('parent_issue_id'): continue`): the item survives
iff the `parent_issue_id` key is present and truthy (a non-empty string). -/
def parentGate (i : NormalizedItem) : Bool :=
  match i.contentData with
  | some cd => cd.parent_issue_id ≠ ""
  | none => false

/-- The `assignees` attribute as read by the filter:
`item.get('assignees', [])`. -/
def assigneesOf (i : NormalizedItem) : List String :=
  match i.contentData with
  | some cd => cd.assignees
  | none => []

/-- Gate 2 condition (`assignees and any(a.lower() in {'halligater',
'smannan9'} for a in assignees)`): `true` means the item is excluded. -/
def assigneeExcluded (i : NormalizedItem) : Bool :=
  let as := assigneesOf i
  !as.isEmpty && as.any (fun a => asciiLower a == "halligater" || asciiLower a == "smannan9")

/-- The status computation of the filter: `custom_fields['Status']` when the
key is present, else `item['state']` when that key is present, else `''`. -/
def statusOf (i : NormalizedItem) : Scalar :=
  match customGet i "Status" with
  | some v => v
  | none =>
    match i.contentData with
    | some cd => .str cd.state
    | none => .str ""

/-- Allow-list of the status gate. -/
def statusAllowList : List String :=
  ["IN DEVELOPMENT", "COMPLETED", "OPEN", "CLOSED"]

/-- Gate 3 (`if status and status.upper() not in [...]: continue`): returns
`ok true` when the item survives the gate, `ok false` when it is dropped, and
propagates the AttributeError raised by `.upper()` on a non-string status. -/
def statusGate (i : NormalizedItem) : Except String Bool :=
  let status := statusOf i
  if scalarTruthy status then do
    let u ← scalarUpper status
    pure (statusAllowList.contains u)
  else pure true

/-- The `anticipated_release_date` computation: look up the custom field,
skip parsing when the value is falsy, parse a string with
`strptime`/`except ValueError`, and raise the TypeError that `strptime`
throws on a non-string argument. -/
def anticipatedReleaseDate (i : NormalizedItem) : Except String (Option Int) :=
  match customGet i "Anticipated release date" with
  | none => .ok none
  | some v =>
    if scalarTruthy v then
      match v with
      | .str s => .ok (parseDate s)
      | .num _ => .error "TypeError"
    else .ok none

/-- Gate 4, the `date_condition_met` computation over the already-parsed
optional date: true when the date is absent, or at most 60 days after today,
or at least 14 days before today. -/
def dateConditionMet (d : Option Int) (today : Int) : Bool :=
  let c1 := d.isNone
  let c2 := match d with
            | some x => x ≤ today + 60
            | none => false
  let c3 := match d with
            | some x => x ≥ today - 14
            | none => false
  c1 || c2 || c3

/-- One loop iteration of `filter_items`: `ok true` when the item is appended
to the output, `ok false` when some gate's `continue` fires, `error` when the
iteration raises. -/
def keepItem (today : Int) (i : NormalizedItem) : Except String Bool :=
  if !parentGate i then pure false
  else if assigneeExcluded i then pure false
  else do
    let s ← statusGate i
    if !s then pure false
    else do
      let d ← anticipatedReleaseDate i
      pure (dateConditionMet d today)

/-- Embedding of `GitHubProjectExporter.filter_items`: the surviving sublist
in order, or the first uncaught exception. -/
def filter_items (today : Int) : List NormalizedItem → Except String (List NormalizedItem)
  | [] => .ok []
  | i :: rest => do
    let keep ← keepItem today i
    let tail ← filter_items today rest
    pure (if keep then i :: tail else tail)

/-! ### Row projection (`export_to_csv`) -/

/-- The fixed nine-column order (`preferred_field_order`). -/
def preferredFieldOrder : List String :=
  ["Product", "Dev link", "High profile", "Release type", "Product type",
   "Anticipated release date", "Client organization/branch",
   "Program contacts", "Assignee (developer)"]

/-- Candidate source-field names per column (`possible_fields.get(field,
[field])`). -/
def candidatesFor (col : String) : List String :=
  if col == "Product" then ["Product"]
  else if col == "Dev link" then ["Dev link", "Dev links"]
  else if col == "High profile" then ["High profile"]
  else if col == "Release type" then ["Release type"]
  else if col == "Product type" then ["Product type"]
  else if col == "Anticipated release date" then ["Anticipated release date"]
  else if col == "Client organization/branch" then ["Client organization/branch"]
  else if col == "Program contacts" then ["Client contacts"]
  else if col == "Assignee (developer)" then ["assignees"]
  else [col]

/-- Dictionary view of the normalized item used by `candidate in item` /
`item[candidate]` during projection: returns the value for exactly the keys
`get_item_details` materialised.  The `custom_fields` key, whose value is a
dict rather than a scalar or list, is looked up separately by `resolveCell`,
mirroring the source's separate `elif` branch. -/
def itemGet (i : NormalizedItem) (k : String) : Option PyVal :=
  if k == "id" then some (match i.id with
                          | some s => .str s
                          | none => .none)
  else if k == "content_type" then some (.str i.content_type)
  else
    match i.contentData with
    | none => none
    | some cd =>
      if k == "title" then some (.str cd.title)
      else if k == "number" then some (.num cd.number)
      else if k == "state" then some (.str cd.state)
      else if k == "body" then some (.str cd.body)
      else if k == "html_url" then some (.str cd.html_url)
      else if k == "parent_issue" then some (.str cd.parent_issue)
      else if k == "parent_issue_number" then some cd.parent_issue_number
      else if k == "parent_issue_id" then some (.str cd.parent_issue_id)
      else if k == "labels" then some (.list cd.labels)
      else if k == "assignees" then some (.list cd.assignees)
      else if k == "milestone" then some (.str cd.milestone)
      else if k == "created_at" then some (.str cd.created_at)
      else if k == "updated_at" then some (.str cd.updated_at)
      else if k == "closed_at" then some (.str cd.closed_at)
      else if k == "repository" then
        some (.str cd.repository)
      else if k == "merged_at" then
        match cd.merged_at with
        | some v => some (.str v)
        | none => none
      else none

/-- First candidate found for one column: check direct item attributes before
custom fields, then move to the next candidate. -/
def firstCandidateValue (i : NormalizedItem) : List String → Option PyVal
  | [] => none
  | c :: rest =>
    match itemGet i c with
    | some v => some v
    | none =>
      match customGet i c with
      | some (.str s) => some (.str s)
      | some (.num n) => some (.num n)
      | none => firstCandidateValue i rest

/-- One cell of the projected row: empty string when no candidate is found or
the value is `None`, comma-space join for lists, `str(value)` otherwise. -/
def resolveCell (i : NormalizedItem) (col : String) : String :=
  match firstCandidateValue i (candidatesFor col) with
  | some (.str s) => s
  | some (.num n) => toString n
  | some (.list xs) => String.intercalate ", " xs
  | some .none => ""
  | none => ""

/-- Projection of one eligible item onto the nine-column row. -/
def projectRow (i : NormalizedItem) : List String :=
  preferredFieldOrder.map (resolveCell i)

/-- Embedding of `GitHubProjectExporter.export_to_csv` at the level of the
grid of cells the emitted CSV string parses back to: the empty input returns
an empty string (no rows at all); otherwise a header row of the nine column
names followed by one row per item, in order. -/
def export_to_csv (items : List NormalizedItem) : List (List String) :=
  if items.isEmpty then []
  else preferredFieldOrder :: items.map projectRow

/-! ### Spec-side definitions for refinement comparisons -/

/-- The item's `state` as the spec's data model words it: the state string,
empty if absent. -/
def stateOfSpec (i : NormalizedItem) : String :=
  match i.contentData with
  | some cd => cd.state
  | none => ""

/-- The status computation as the spec words it: `customFields["Status"]`
when that key is present, otherwise the item's state. -/
def statusPerSpec (i : NormalizedItem) : Scalar :=
  match customGet i "Status" with
  | some v => v
  | none => .str (stateOfSpec i)

/-! ### Helper lemmas -/

theorem except_pure_eq {ε β : Type} (b : β) : (pure b : Except ε β) = .ok b := rfl

theorem except_bind_ok {ε α β : Type} (a : α) (f : α → Except ε β) :
    (Except.ok a >>= f : Except ε β) = f a := rfl

theorem except_bind_error {ε α β : Type} (e : ε) (f : α → Except ε β) :
    (Except.error e >>= f : Except ε β) = .error e := rfl

theorem keepItem_of_parentGate_false {today : Int} {i : NormalizedItem}
    (h : parentGate i = false) : keepItem today i = .ok false := by
  simp [keepItem, h, except_pure_eq]

theorem keepItem_of_assigneeExcluded {today : Int} {i : NormalizedItem}
    (h : assigneeExcluded i = true) : keepItem today i = .ok false := by
  cases hp : parentGate i with
  | false => exact keepItem_of_parentGate_false hp
  | true => simp [keepItem, hp, h, except_pure_eq]

theorem keepItem_ok_true_elim {today : Int} {i : NormalizedItem}
    (h : keepItem today i = .ok true) :
    parentGate i = true ∧ assigneeExcluded i = false ∧ statusGate i = .ok true := by
  cases hp : parentGate i with
  | false => simp [keepItem_of_parentGate_false hp] at h
  | true =>
    cases ha : assigneeExcluded i with
    | true => simp [keepItem_of_assigneeExcluded ha] at h
    | false =>
      refine ⟨rfl, rfl, ?_⟩
      unfold keepItem at h
      simp only [hp, ha, Bool.not_true, Bool.false_eq_true, if_false, if_true,
        Bool.not_false] at h
      cases hs : statusGate i with
      | error e => rw [hs, except_bind_error] at h; exact absurd h (by simp)
      | ok s =>
        cases s with
        | true => rfl
        | false =>
          rw [hs, except_bind_ok] at h
          simp [except_pure_eq] at h

theorem mem_of_filter_items {today : Int} {items res : List NormalizedItem}
    (h : filter_items today items = .ok res) :
    ∀ i ∈ res, i ∈ items ∧ keepItem today i = .ok true := by
  induction items generalizing res with
  | nil =>
    intro i hi
    unfold filter_items at h
    cases h
    cases hi
  | cons x rest ih =>
    intro i hi
    unfold filter_items at h
    cases hk : keepItem today x with
    | error e => rw [hk, except_bind_error] at h; cases h
    | ok k =>
      rw [hk, except_bind_ok] at h
      cases ht : filter_items today rest with
      | error e => rw [ht, except_bind_error] at h; cases h
      | ok t =>
        rw [ht, except_bind_ok, except_pure_eq] at h
        cases h
        cases k with
        | true =>
          rcases List.mem_cons.mp hi with rfl | hmem
          · exact ⟨List.mem_cons_self _ _, hk⟩
          · have := ih ht i hmem
            exact ⟨List.mem_cons_of_mem _ this.1, this.2⟩
        | false =>
          have := ih ht i hi
          exact ⟨List.mem_cons_of_mem _ this.1, this.2⟩

theorem assigneeExcluded_iff (i : NormalizedItem) :
    assigneeExcluded i = true ↔
      ∃ a ∈ assigneesOf i, asciiLower a = "halligater" ∨ asciiLower a = "smannan9" := by
  simp only [assigneeExcluded, Bool.and_eq_true, Bool.not_eq_true',
    List.isEmpty_iff, List.any_eq_true, Bool.or_eq_true, beq_iff_eq]
  constructor
  · rintro ⟨-, a, ha, hc⟩
    exact ⟨a, ha, hc⟩
  · rintro ⟨a, ha, hc⟩
    refine ⟨?_, a, ha, hc⟩
    cases he : (assigneesOf i).isEmpty
    · rfl
    · rw [List.isEmpty_iff] at he
      exact absurd (he ▸ ha) (List.not_mem_nil a)

/-- C1: for every item reaching gate 4, the release-date window gate passes
the item iff the parsed anticipated release date is absent, or at most 60
days after today, or at least 14 days before today, as a three-way OR of
independent conditions; since one of the two range branches holds for every
date, the gate never excludes any item. -/
theorem c1_release_date_window_gate (d : Option Int) (today : Int) :
    dateConditionMet d today = true ∧
    (dateConditionMet d today = true ↔
      (d = none ∨ (∃ x, d = some x ∧ x ≤ today + 60) ∨
        (∃ x, d = some x ∧ x ≥ today - 14))) := by
  cases d with
  | none => simp [dateConditionMet]
  | some x =>
    constructor
    · simp only [dateConditionMet, Option.isNone_some, Bool.false_or,
        Bool.or_eq_true, decide_eq_true_eq]
      omega
    · simp only [dateConditionMet, Option.isNone_some, Bool.false_or,
        Bool.or_eq_true, decide_eq_true_eq, Option.some.injEq]
      constructor
      · intro h
        rcases h with h | h
        · exact Or.inr (Or.inl ⟨x, rfl, h⟩)
        · exact Or.inr (Or.inr ⟨x, rfl, h⟩)
      · rintro (h | ⟨y, hy, h⟩ | ⟨y, hy, h⟩)
        · cases h
        · cases hy; exact Or.inl h
        · cases hy; exact Or.inr h

/-- C2: a raw item whose content carries no parent-issue reference is
excluded by the eligibility filter regardless of any other attribute, and
every item appearing in the filter's output comes from content with a
present parent whose id is non-empty. -/
theorem c2_parent_linkage_gate :
    (∀ (today : Int) (raw : RawItem),
        (raw.content = none ∨ ∃ c, raw.content = some c ∧ c.parent = none) →
        keepItem today (get_item_details raw) = .ok false) ∧
    (∀ (today : Int) (items res : List NormalizedItem),
        filter_items today items = .ok res →
        ∀ i ∈ res, ∃ cd, i.contentData = some cd ∧ cd.parent_issue_id ≠ "") ∧
    (∀ (today : Int) (raw : RawItem) (items res : List NormalizedItem),
        filter_items today items = .ok res → get_item_details raw ∈ res →
        ∃ c p, raw.content = some c ∧ c.parent = some p ∧ p.id.getD "" ≠ "") := by
  have hgate : ∀ i : NormalizedItem, parentGate i = true →
      ∃ cd, i.contentData = some cd ∧ cd.parent_issue_id ≠ "" := by
    intro i h
    unfold parentGate at h
    cases hc : i.contentData with
    | none => rw [hc] at h; cases h
    | some cd =>
      rw [hc] at h
      exact ⟨cd, rfl, by simpa using h⟩
  refine ⟨?_, ?_, ?_⟩
  · intro today raw h
    apply keepItem_of_parentGate_false
    rcases h with h | ⟨c, hc, hp⟩
    · simp [get_item_details, parentGate, h]
    · cases hn : c.number with
      | none => simp [get_item_details, parentGate, hc, hn]
      | some n =>
        cases hs : c.state with
        | none => simp [get_item_details, parentGate, hc, hn, hs]
        | some st => simp [get_item_details, parentGate, hc, hn, hs, hp]
  · intro today items res hf i hi
    exact hgate i (keepItem_ok_true_elim (mem_of_filter_items hf i hi).2).1
  · intro today raw items res hf hi
    have hp := (keepItem_ok_true_elim (mem_of_filter_items hf _ hi).2).1
    unfold parentGate at hp
    cases hc : raw.content with
    | none => simp [get_item_details, hc] at hp
    | some c =>
      cases hn : c.number with
      | none => simp [get_item_details, hc, hn] at hp
      | some n =>
        cases hs : c.state with
        | none => simp [get_item_details, hc, hn, hs] at hp
        | some st =>
          cases hpar : c.parent with
          | none => simp [get_item_details, hc, hn, hs, hpar] at hp
          | some p =>
            refine ⟨c, p, rfl, hpar, ?_⟩
            simp only [get_item_details, hc, hn, hs, hpar] at hp
            simpa using hp

/-- C3: any item one of whose assignee logins lower-cases to `halligater` or
`smannan9` is dropped by the filter; an item with no matching assignee login
(in particular one with no assignees) passes the assignee-exclusion gate, and
no item in the filter's output has a matching login. -/
theorem c3_assignee_exclusion_gate :
    (∀ (today : Int) (i : NormalizedItem),
        (∃ a ∈ assigneesOf i, asciiLower a = "halligater" ∨ asciiLower a = "smannan9") →
        keepItem today i = .ok false) ∧
    (∀ i : NormalizedItem,
        (∀ a ∈ assigneesOf i, asciiLower a ≠ "halligater" ∧ asciiLower a ≠ "smannan9") →
        assigneeExcluded i = false) ∧
    (∀ (today : Int) (items res : List NormalizedItem),
        filter_items today items = .ok res →
        ∀ i ∈ res, ∀ a ∈ assigneesOf i,
          asciiLower a ≠ "halligater" ∧ asciiLower a ≠ "smannan9") := by
  refine ⟨?_, ?_, ?_⟩
  · intro today i h
    exact keepItem_of_assigneeExcluded ((assigneeExcluded_iff i).mpr h)
  · intro i h
    cases hx : assigneeExcluded i with
    | false => rfl
    | true =>
      rcases (assigneeExcluded_iff i).mp hx with ⟨a, ha, hc⟩
      rcases hc with hc | hc
      · exact absurd hc (h a ha).1
      · exact absurd hc (h a ha).2
  · intro today items res hf i hi a ha
    have hx := (keepItem_ok_true_elim (mem_of_filter_items hf i hi).2).2.1
    constructor
    · intro hcontra
      rw [(assigneeExcluded_iff i).mpr ⟨a, ha, Or.inl hcontra⟩] at hx
      cases hx
    · intro hcontra
      rw [(assigneeExcluded_iff i).mpr ⟨a, ha, Or.inr hcontra⟩] at hx
      cases hx

/-- Raw item with Issue content and no parent reference, for the C2 witness. -/
def rawNoParent : RawItem :=
  { id := some "r1"
    content := some
      { title := some "Top-level issue", number := some 1, state := some "OPEN"
        body := none, url := none, createdAt := none, updatedAt := none
        closedAt := none, mergedAt := none, parent := none, labels := none
        assignees := some ["alice"], milestone := none, repository := none }
    fieldValues := none }

/-- Raw item with Issue content and a parent reference, for the C2 witness. -/
def rawWithParent : RawItem :=
  { id := some "r2"
    content := some
      { title := some "Sub-issue", number := some 2, state := some "OPEN"
        body := none, url := none, createdAt := none, updatedAt := none
        closedAt := none, mergedAt := none
        parent := some { id := some "p1", title := some "Parent", number := some 1 }
        labels := none, assignees := none, milestone := none, repository := none }
    fieldValues := none }

theorem c2_parent_linkage_gate_witness :
    keepItem 0 (get_item_details rawNoParent) = .ok false ∧
    (∃ c p, rawWithParent.content = some c ∧ c.parent = some p ∧ p.id.getD "" ≠ "") :=
  ⟨c2_parent_linkage_gate.1 0 rawNoParent (Or.inr ⟨_, rfl, rfl⟩),
   c2_parent_linkage_gate.2.2 0 rawWithParent [get_item_details rawWithParent]
     [get_item_details rawWithParent] (by decide) (by decide)⟩

/-- Item assigned to an excluded account (mixed case), for the C3 witness. -/
def excludedAssigneeItem : NormalizedItem :=
  { id := some "i3", content_type := "Issue"
    contentData := some
      { title := "", number := 3, state := "OPEN", body := "", html_url := ""
        parent_issue := "Parent", parent_issue_number := .num 1
        parent_issue_id := "p1", labels := [], assignees := ["HalliGater"]
        milestone := "", created_at := "", updated_at := "", closed_at := ""
        repository := "", merged_at := none }
    customFields := none }

/-- Item assigned to a non-excluded account, for the C3 witness. -/
def cleanAssigneeItem : NormalizedItem :=
  { excludedAssigneeItem with
    contentData := some
      { title := "", number := 4, state := "OPEN", body := "", html_url := ""
        parent_issue := "Parent", parent_issue_number := .num 1
        parent_issue_id := "p1", labels := [], assignees := ["alice"]
        milestone := "", created_at := "", updated_at := "", closed_at := ""
        repository := "", merged_at := none } }

theorem c3_assignee_exclusion_gate_witness :
    keepItem 0 excludedAssigneeItem = .ok false ∧
    assigneeExcluded cleanAssigneeItem = false :=
  ⟨c3_assignee_exclusion_gate.1 0 excludedAssigneeItem
     ⟨"HalliGater", by decide, by decide⟩,
   c3_assignee_exclusion_gate.2.1 cleanAssigneeItem (by decide)⟩

theorem mem_dictInsert {m : List (String × Scalar)} {k : String} {v : Scalar}
    {kv : String × Scalar} (h : kv ∈ dictInsert m k v) : kv ∈ m ∨ kv.1 = k := by
  induction m with
  | nil =>
    unfold dictInsert at h
    rcases List.mem_singleton.mp h with rfl
    exact Or.inr rfl
  | cons hd tl ih =>
    obtain ⟨k', v'⟩ := hd
    unfold dictInsert at h
    by_cases hk : k' == k
    · rw [if_pos hk] at h
      rcases List.mem_cons.mp h with rfl | hmem
      · exact Or.inr (eq_of_beq hk)
      · exact Or.inl (List.mem_cons_of_mem _ hmem)
    · rw [if_neg hk] at h
      rcases List.mem_cons.mp h with rfl | hmem
      · exact Or.inl (List.mem_cons_self _ _)
      · rcases ih hmem with hmem' | hkey
        · exact Or.inl (List.mem_cons_of_mem _ hmem')
        · exact Or.inr hkey

theorem mem_foldl_processFieldValue (l : List RawFieldValue) :
    ∀ (acc : List (String × Scalar)) (kv : String × Scalar),
      kv ∈ l.foldl processFieldValue acc →
      kv ∈ acc ∨ (kv.1 ≠ "Unknown Field" ∧ ∃ fv ∈ l, resolvedFieldName fv = kv.1) := by
  induction l with
  | nil => intro acc kv h; exact Or.inl h
  | cons fv rest ih =>
    intro acc kv h
    rw [List.foldl_cons] at h
    rcases ih (processFieldValue acc fv) kv h with hstep | ⟨hne, fv', hfv', hname⟩
    · unfold processFieldValue at hstep
      by_cases hu : resolvedFieldName fv == "Unknown Field"
      · rw [if_pos hu] at hstep
        exact Or.inl hstep
      · rw [if_neg hu] at hstep
        cases hx : extractValue fv with
        | none => rw [hx] at hstep; exact Or.inl hstep
        | some w =>
          rw [hx] at hstep
          rcases mem_dictInsert hstep with hmem | hkey
          · exact Or.inl hmem
          · refine Or.inr ⟨?_, fv, List.mem_cons_self _ _, hkey.symm⟩
            rw [hkey]
            exact fun hcontra => hu (beq_iff_eq.mpr hcontra)
    · exact Or.inr ⟨hne, fv', List.mem_cons_of_mem _ hfv', hname⟩

/-- C6: the normalizer's custom-field mapping contains only entries whose raw
field value resolved to a field display name; a field value without one is
dropped and never stored under the `"Unknown Field"` placeholder key. -/
theorem c6_custom_fields_resolved (raw : RawItem) (m : List (String × Scalar))
    (k : String) (v : Scalar) (hm : (get_item_details raw).customFields = some m)
    (hkv : (k, v) ∈ m) :
    k ≠ "Unknown Field" ∧
      ∃ fvs, raw.fieldValues = some fvs ∧ ∃ fv ∈ fvs, resolvedFieldName fv = k := by
  have hm' : raw.fieldValues.map buildCustomFields = some m := by
    simpa [get_item_details] using hm
  cases hf : raw.fieldValues with
  | none => rw [hf] at hm'; cases hm'
  | some fvs =>
    rw [hf, Option.map_some'] at hm'
    rcases Option.some.injEq _ _ ▸ hm' with rfl
    have := mem_foldl_processFieldValue fvs [] (k, v) hkv
    rcases this with habs | ⟨hne, fv, hfv, hname⟩
    · cases habs
    · exact ⟨hne, fvs, rfl, fv, hfv, hname⟩

/-- Raw item carrying one resolvable text field value, for the C6 witness. -/
def rawWithProductField : RawItem :=
  { id := some "r6", content := none
    fieldValues := some
      [{ text := some "Widget", number := none, date := none, name := none
         field := some { name := some "Product" } }] }

theorem c6_custom_fields_resolved_witness :
    "Product" ≠ "Unknown Field" ∧
      ∃ fvs, rawWithProductField.fieldValues = some fvs ∧
        ∃ fv ∈ fvs, resolvedFieldName fv = "Product" :=
  c6_custom_fields_resolved rawWithProductField
    [("Product", .str "Widget")] "Product" (.str "Widget") rfl (by decide)

/-- C7: for a raw field value with a resolvable field name, the stored scalar
follows the exact precedence text, else number, else date, else (name and
owning field both present) single-select label; an entry exposing none of
these contributes no custom-field entry. -/
theorem c7_value_extraction_precedence (fv : RawFieldValue) :
    (∀ t, fv.text = some t → extractValue fv = some (.str t)) ∧
    (∀ n, fv.text = none → fv.number = some n → extractValue fv = some (.num n)) ∧
    (∀ d, fv.text = none → fv.number = none → fv.date = some d →
      extractValue fv = some (.str d)) ∧
    (∀ nm fr, fv.text = none → fv.number = none → fv.date = none →
      fv.name = some nm → fv.field = some fr → extractValue fv = some (.str nm)) ∧
    (fv.text = none → fv.number = none → fv.date = none →
      (fv.name = none ∨ fv.field = none) → extractValue fv = none) ∧
    (∀ m, extractValue fv = none → processFieldValue m fv = m) := by
  refine ⟨?_, ?_, ?_, ?_, ?_, ?_⟩
  · intro t ht; simp [extractValue, ht]
  · intro n ht hn; simp [extractValue, ht, hn]
  · intro d ht hn hd; simp [extractValue, ht, hn, hd]
  · intro nm fr ht hn hd hnm hfr; simp [extractValue, ht, hn, hd, hnm, hfr]
  · intro ht hn hd h
    rcases h with h | h <;> simp [extractValue, ht, hn, hd, h]
  · intro m hx
    unfold processFieldValue
    rw [hx]
    split <;> rfl

/-- Field value exposing a date attribute only, for the C7 witness. -/
def dateOnlyFieldValue : RawFieldValue :=
  { text := none, number := none, date := some "2025-01-31", name := none
    field := some { name := some "Anticipated release date" } }

/-- Field value exposing a single-select name and owning field,
for the C7 witness. -/
def selectFieldValue : RawFieldValue :=
  { text := none, number := none, date := none, name := some "High"
    field := some { name := some "High profile" } }

/-- Field value exposing no extractable attribute, for the C7 witness. -/
def emptyFieldValue : RawFieldValue :=
  { text := none, number := none, date := none, name := some "orphan"
    field := none }

theorem c7_value_extraction_precedence_witness :
    extractValue { text := some "T", number := some 3, date := none,
                   name := none, field := none } = some (.str "T") ∧
    extractValue { text := none, number := some 3, date := some "2025-01-31",
                   name := none, field := none } = some (.num 3) ∧
    extractValue dateOnlyFieldValue = some (.str "2025-01-31") ∧
    extractValue selectFieldValue = some (.str "High") ∧
    extractValue emptyFieldValue = none ∧
    processFieldValue [("Status", .str "Open")] emptyFieldValue
      = [("Status", .str "Open")] :=
  ⟨(c7_value_extraction_precedence _).1 "T" rfl,
   (c7_value_extraction_precedence _).2.1 3 rfl rfl,
   (c7_value_extraction_precedence _).2.2.1 "2025-01-31" rfl rfl rfl,
   (c7_value_extraction_precedence _).2.2.2.1 "High" { name := some "High profile" }
     rfl rfl rfl rfl rfl,
   (c7_value_extraction_precedence _).2.2.2.2.1 rfl rfl rfl (Or.inr rfl),
   (c7_value_extraction_precedence _).2.2.2.2.2 [("Status", .str "Open")]
     ((c7_value_extraction_precedence _).2.2.2.2.1 rfl rfl rfl (Or.inr rfl))⟩

theorem keepItem_of_statusGate_false {today : Int} {i : NormalizedItem}
    (h : statusGate i = .ok false) : keepItem today i = .ok false := by
  cases hp : parentGate i with
  | false => exact keepItem_of_parentGate_false hp
  | true =>
    cases ha : assigneeExcluded i with
    | true => exact keepItem_of_assigneeExcluded ha
    | false =>
      unfold keepItem
      simp [hp, ha, h, except_bind_ok, except_pure_eq]

theorem statusGate_of_str {i : NormalizedItem} {s : String}
    (h : statusOf i = .str s) :
    statusGate i = .ok (s == "" || statusAllowList.contains (asciiUpper s)) := by
  unfold statusGate
  rw [h]
  by_cases hs : s = ""
  · subst hs
    simp [scalarTruthy, except_pure_eq]
  · simp [scalarTruthy, scalarUpper, hs, except_bind_ok, except_pure_eq]

/-- Item whose `Status` custom field holds the number 7, eligible through
gates 1 and 2, used as the C4 counterexample. -/
def statusNumberItem : NormalizedItem :=
  { id := some "i4", content_type := "Issue"
    contentData := some
      { title := "", number := 5, state := "OPEN", body := "", html_url := ""
        parent_issue := "Parent", parent_issue_number := .num 1
        parent_issue_id := "p1", labels := [], assignees := []
        milestone := "", created_at := "", updated_at := "", closed_at := ""
        repository := "", merged_at := none }
    customFields := some [("Status", .num 7)] }

/-- C4 fails as stated: an item whose computed status is the truthy number 7
is neither passed nor dropped by the filter — the run raises an
AttributeError instead of dropping the item. -/
theorem c4_status_gate_counterexample :
    filter_items 0 [statusNumberItem] = .error "AttributeError" ∧
    filter_items 0 [statusNumberItem] ≠ .ok [] ∧
    filter_items 0 [statusNumberItem] ≠ .ok [statusNumberItem] := by
  refine ⟨by decide, ?_, ?_⟩ <;> decide

/-- C4 (amended): the status gate computes status as `customFields["Status"]`
when present, otherwise the item's state; when that status is a string, a
non-empty value must case-insensitively equal one of the four allowed values
or the item is dropped, and an empty status passes the gate.  (A truthy
numeric status instead raises an uncaught AttributeError.) -/
theorem c4_status_gate :
    (∀ i : NormalizedItem, statusOf i = statusPerSpec i) ∧
    (∀ (i : NormalizedItem) (s : String), statusOf i = .str s →
      statusGate i = .ok (s == "" || statusAllowList.contains (asciiUpper s))) ∧
    (∀ (today : Int) (i : NormalizedItem) (s : String), statusOf i = .str s →
      s ≠ "" → statusAllowList.contains (asciiUpper s) = false →
      keepItem today i = .ok false) := by
  refine ⟨?_, ?_, ?_⟩
  · intro i
    unfold statusOf statusPerSpec stateOfSpec
    cases customGet i "Status" with
    | some v => rfl
    | none => cases i.contentData <;> rfl
  · intro i s h
    exact statusGate_of_str h
  · intro today i s h hne hall
    apply keepItem_of_statusGate_false
    rw [statusGate_of_str h, hall]
    simp [hne]

/-- Item with a custom `Status` of "Blocked", for the C4 witness. -/
def blockedStatusItem : NormalizedItem :=
  { statusNumberItem with customFields := some [("Status", .str "Blocked")] }

/-- Item with a custom `Status` of "In Development", for the C4 witness. -/
def inDevStatusItem : NormalizedItem :=
  { statusNumberItem with customFields := some [("Status", .str "In Development")] }

theorem c4_status_gate_witness :
    statusGate inDevStatusItem = .ok true ∧
    keepItem 0 blockedStatusItem = .ok false :=
  ⟨by have := c4_status_gate.2.1 inDevStatusItem "In Development" rfl
      simpa using this,
   c4_status_gate.2.2 0 blockedStatusItem "Blocked" rfl (by decide) (by decide)⟩

/-- Item whose `Status` custom field holds the number 3, used as the C10
counterexample. -/
def statusNumberThreeItem : NormalizedItem :=
  { statusNumberItem with
    id := some "i10", customFields := some [("Status", .num 3)] }

/-- C10 fails as stated: a truthy numeric `Status` reaches the upper-casing
error branch, so the status computation is not total. -/
theorem c10_status_totality_counterexample :
    statusOf statusNumberThreeItem = .num 3 ∧
    statusGate statusNumberThreeItem = .error "AttributeError" ∧
    keepItem 0 statusNumberThreeItem = .error "AttributeError" := by
  refine ⟨by decide, by decide, by decide⟩

/-- C10 (amended): the status gate is total on every item whose computed
status is a string or the falsy number 0; the upper-casing error branch is
reachable exactly for truthy numeric statuses, where the gate raises an
AttributeError. -/
theorem c10_status_gate_totality :
    (∀ (i : NormalizedItem) (s : String), statusOf i = .str s →
      ∃ b, statusGate i = .ok b) ∧
    (∀ (i : NormalizedItem) (n : Int), statusOf i = .num n → n ≠ 0 →
      statusGate i = .error "AttributeError") ∧
    (∀ i : NormalizedItem, statusOf i = .num 0 → statusGate i = .ok true) := by
  refine ⟨?_, ?_, ?_⟩
  · intro i s h
    exact ⟨_, statusGate_of_str h⟩
  · intro i n h hn
    unfold statusGate
    rw [h]
    simp [scalarTruthy, scalarUpper, hn, except_bind_error]
  · intro i h
    unfold statusGate
    rw [h]
    simp [scalarTruthy, except_pure_eq]

/-- Item whose `Status` custom field holds the number 0, for the C10
witness. -/
def statusZeroItem : NormalizedItem :=
  { statusNumberItem with customFields := some [("Status", .num 0)] }

theorem c10_status_gate_totality_witness :
    (∃ b, statusGate inDevStatusItem = .ok b) ∧
    statusGate statusNumberThreeItem = .error "AttributeError" ∧
    statusGate statusZeroItem = .ok true :=
  ⟨c10_status_gate_totality.1 inDevStatusItem "In Development" rfl,
   c10_status_gate_totality.2.1 statusNumberThreeItem 3 rfl (by decide),
   c10_status_gate_totality.2.2 statusZeroItem rfl⟩

/-- Item whose `Anticipated release date` custom field holds the number 5,
eligible through gates 1–3, used as the C5 counterexample. -/
def numericDateItem : NormalizedItem :=
  { id := some "i5", content_type := "Issue"
    contentData := some
      { title := "", number := 6, state := "OPEN", body := "", html_url := ""
        parent_issue := "Parent", parent_issue_number := .num 1
        parent_issue_id := "p1", labels := [], assignees := []
        milestone := "", created_at := "", updated_at := "", closed_at := ""
        repository := "", merged_at := none }
    customFields := some [("Anticipated release date", .num 5)] }

/-- C5 fails as stated: a truthy numeric `Anticipated release date` value,
which is certainly not parsable as a YYYY-MM-DD date, is not recovered as
"no date" — `strptime` raises a TypeError that `except ValueError` does not
catch, and the filter fails. -/
theorem c5_unparsable_date_counterexample :
    anticipatedReleaseDate numericDateItem = .error "TypeError" ∧
    filter_items 0 [numericDateItem] = .error "TypeError" ∧
    filter_items 0 [numericDateItem] ≠ .ok [numericDateItem] ∧
    filter_items 0 [numericDateItem] ≠ .ok [] := by
  refine ⟨by decide, by decide, by decide, by decide⟩

/-- C5 (amended): an `Anticipated release date` custom field that is absent,
or holds an empty or unparsable string, is treated as "no date": the parse
step recovers to `none` without error and the release-date gate passes the
item.  (A truthy numeric value instead raises an uncaught TypeError.) -/
theorem c5_unparsable_date_recovered (i : NormalizedItem) (today : Int)
    (h : customGet i "Anticipated release date" = none ∨
      ∃ s, customGet i "Anticipated release date" = some (.str s) ∧
        (s = "" ∨ parseDate s = none)) :
    anticipatedReleaseDate i = .ok none ∧ dateConditionMet none today = true := by
  refine ⟨?_, by simp [dateConditionMet]⟩
  unfold anticipatedReleaseDate
  rcases h with h | ⟨s, hs, hcase⟩
  · rw [h]
  · rw [hs]
    by_cases hse : s = ""
    · subst hse
      simp [scalarTruthy]
    · rcases hcase with rfl | hparse
      · simp [scalarTruthy]
      · simp [scalarTruthy, hse, hparse]

/-- Item whose `Anticipated release date` custom field holds an unparsable
string, for the C5 witness. -/
def unparsableDateItem : NormalizedItem :=
  { numericDateItem with
    customFields := some [("Anticipated release date", .str "not-a-date")] }

theorem c5_unparsable_date_recovered_witness :
    anticipatedReleaseDate unparsableDateItem = .ok none ∧
    dateConditionMet none 0 = true :=
  c5_unparsable_date_recovered unparsableDateItem 0
    (Or.inr ⟨"not-a-date", rfl, Or.inr (by decide)⟩)

/-- Eligible item with assignees `["alice"]` and custom `Product = "Widget"`,
matching the spec's end-to-end scenario (b). -/
def widgetItem : NormalizedItem :=
  { id := some "i8", content_type := "Issue"
    contentData := some
      { title := "Widget work", number := 8, state := "OPEN", body := ""
        html_url := "", parent_issue := "Parent", parent_issue_number := .num 1
        parent_issue_id := "p1", labels := [], assignees := ["alice"]
        milestone := "", created_at := "", updated_at := "", closed_at := ""
        repository := "", merged_at := none }
    customFields := some [("Product", .str "Widget"), ("Status", .str "Completed")] }

/-- C8: row projection always produces exactly the nine columns of the fixed
order, each resolved through its candidate source names with direct item
attributes checked before custom fields; in particular the eligible item with
assignees `["alice"]` and `Product = "Widget"` and no other listed fields
projects to `["Widget","","","","","","","","alice"]`. -/
theorem c8_row_projection :
    (∀ i : NormalizedItem, (projectRow i).length = 9) ∧
    (∀ i : NormalizedItem, projectRow i =
      [resolveCell i "Product", resolveCell i "Dev link",
       resolveCell i "High profile", resolveCell i "Release type",
       resolveCell i "Product type", resolveCell i "Anticipated release date",
       resolveCell i "Client organization/branch",
       resolveCell i "Program contacts", resolveCell i "Assignee (developer)"]) ∧
    keepItem 0 widgetItem = .ok true ∧
    projectRow widgetItem = ["Widget", "", "", "", "", "", "", "", "alice"] ∧
    export_to_csv [widgetItem] =
      [preferredFieldOrder, ["Widget", "", "", "", "", "", "", "", "alice"]] := by
  refine ⟨?_, ?_, by decide, by decide, by decide⟩
  · intro i
    simp [projectRow, preferredFieldOrder]
  · intro i
    simp [projectRow, preferredFieldOrder]

/-- Bare item with no content and no custom fields, for the C9 witness. -/
def bareItem : NormalizedItem :=
  { id := some "i9", content_type := "Unknown", contentData := none
    customFields := none }

/-- C9 fails as stated: serializing the empty list of eligible items yields
an entirely empty output, not a header row of the nine column names. -/
theorem c9_serialization_counterexample :
    export_to_csv [] = ([] : List (List String)) ∧
    export_to_csv [] ≠ [preferredFieldOrder] := by
  refine ⟨by decide, by decide⟩

/-- C9 (amended): for every non-empty list of eligible items the serialized
output is a header row of the nine column names followed by exactly one data
row per item, in the filter's output order; the empty list instead yields an
empty output with no header row. -/
theorem c9_serialization (items : List NormalizedItem) (h : items ≠ []) :
    export_to_csv items = preferredFieldOrder :: items.map projectRow := by
  unfold export_to_csv
  rw [if_neg]
  simp [List.isEmpty_iff, h]

theorem c9_serialization_witness :
    export_to_csv [bareItem] = preferredFieldOrder :: [bareItem].map projectRow :=
  c9_serialization [bareItem] (by decide)
